import Mathlib

/-!
Shallow embedding of src/ProviderPDFtoCSV.py: the parser `parse_provider_data`
and the row construction of `write_to_csv`.  Strings are modelled as
`List Char`.  Each regular expression of the source is embedded as a dedicated
matcher that mirrors the backtracking order of the Python `re` engine:
greedy pieces try longest first, lazy pieces shortest first, alternatives in
written order, and `re.search` tries start positions left to right.
Character classes use the ASCII readings of `\w`, `\s`, `\d` (all inputs of
interest are ASCII).
-/

namespace ProviderPDFtoCSV

/-- Python regex class `\s` (ASCII): space, tab, newline, carriage return,
vertical tab, form feed. -/
def isSpaceChar (c : Char) : Bool :=
  c == ' ' || c == '\t' || c == '\n' || c == '\r' || c == '\x0b' || c == '\x0c'

/-- Python regex class `\w` (ASCII): letters, digits, underscore. -/
def isWordChar (c : Char) : Bool :=
  c.isAlpha || c.isDigit || c == '_'

/-- One character of the class `[\w\s,.'-]` used by the name and boundary
patterns (`Char.ofNat 39` is the apostrophe). -/
def isNameChar (c : Char) : Bool :=
  isWordChar c || isSpaceChar c || c == ',' || c == '.' || c == Char.ofNat 39 || c == '-'

/-- The literal `lit` occurs in `s` starting at position `i`. -/
def litAt (s : List Char) (i : Nat) (lit : List Char) : Bool :=
  decide ((s.drop i).take lit.length = lit)

/-- The character at position `i` of `s` is `c`. -/
def charIs (s : List Char) (i : Nat) (c : Char) : Bool :=
  decide (s[i]? = some c)

/-- Length of the maximal whitespace run of `s` starting at position `i`. -/
def wsRunFrom (s : List Char) (i : Nat) : Nat :=
  ((s.drop i).takeWhile isSpaceChar).length

/-- Length of the maximal `[\w\s,.'-]` run of `s` starting at position `i`. -/
def nameRunFrom (s : List Char) (i : Nat) : Nat :=
  ((s.drop i).takeWhile isNameChar).length

/-- Python `needle in hay` (substring containment). -/
def substrIn (needle hay : List Char) : Bool :=
  (List.range (hay.length + 1)).any (fun i => litAt hay i needle)

/-- Index of the first occurrence of `pat` in `s`. -/
def firstOccur (s pat : List Char) : Option Nat :=
  (List.range (s.length + 1)).find? (fun i => litAt s i pat)

/-- Python `s.split(pat)[0]`: the text before the first occurrence of `pat`. -/
def takeBefore (s pat : List Char) : List Char :=
  match firstOccur s pat with
  | some i => s.take i
  | none => s

/-- Python `str.strip()`. -/
def pyStrip (s : List Char) : List Char :=
  ((s.dropWhile isSpaceChar).reverse.dropWhile isSpaceChar).reverse

/-- Helper for `str.split()` with no argument; `cur` is the current word,
reversed. -/
def splitWsAux : List Char → List Char → List (List Char)
  | [], cur => if cur.isEmpty then [] else [cur.reverse]
  | c :: cs, cur =>
    if isSpaceChar c then
      if cur.isEmpty then splitWsAux cs [] else cur.reverse :: splitWsAux cs []
    else splitWsAux cs (c :: cur)

/-- Python `str.split()`: split on whitespace runs, no empty pieces. -/
def pySplitWs (s : List Char) : List (List Char) := splitWsAux s []

/-- Helper for `str.split('\n')`; `cur` is the current piece, reversed. -/
def splitNlAux : List Char → List Char → List (List Char)
  | [], cur => [cur.reverse]
  | c :: cs, cur =>
    if c == '\n' then cur.reverse :: splitNlAux cs [] else splitNlAux cs (c :: cur)

/-- Python `str.split('\n')` (keeps empty pieces). -/
def splitOnNl (s : List Char) : List (List Char) := splitNlAux s []

/-- Python `sep.join(parts)`. -/
def joinSep (sep : List Char) : List (List Char) → List Char
  | [] => []
  | [x] => x
  | x :: y :: rest => x ++ sep ++ joinSep sep (y :: rest)

/-- Python `str.replace(", ", " & ")`, left to right, non-overlapping. -/
def replaceCommaSpace : List Char → List Char
  | ',' :: ' ' :: rest => ' ' :: '&' :: ' ' :: replaceCommaSpace rest
  | c :: rest => c :: replaceCommaSpace rest
  | [] => []

theorem dropWhile_length_le (p : Char → Bool) :
    ∀ l : List Char, (l.dropWhile p).length ≤ l.length
  | [] => Nat.le_refl _
  | c :: cs => by
    simp only [List.dropWhile]
    split
    · exact Nat.le_trans (dropWhile_length_le p cs) (Nat.le_succ _)
    · exact Nat.le_refl _

/-- Python `re.sub(r'\s*,\s*', ' - ', s)`: scanning left to right, a maximal
whitespace run followed by a comma followed by a maximal whitespace run is
replaced by `" - "`; otherwise the character is kept and scanning moves on. -/
def subCommaDash (s : List Char) : List Char :=
  match h : s with
  | [] => []
  | c :: cs =>
    let w := (s.takeWhile isSpaceChar).length
    match h2 : s.drop w with
    | ',' :: rest => ' ' :: '-' :: ' ' :: subCommaDash (rest.dropWhile isSpaceChar)
    | _ => c :: subCommaDash cs
termination_by s.length
decreasing_by
· have hlen : (s.drop w).length = rest.length + 1 := by rw [h2]; simp
  have hs : s.length = cs.length + 1 := by rw [h]; simp
  have hd : (s.drop w).length = s.length - w := by simp
  have hr := dropWhile_length_le isSpaceChar rest
  have hc : (c :: cs).length = cs.length + 1 := by simp
  omega
· simp [h]

/-- Python `str.lower()` (ASCII). -/
def lowerStr (s : List Char) : List Char := s.map Char.toLower

/-- Python `re.match(r'^\d+\.\d+ miles$', part)` as a Boolean test (both
digit runs are maximal; `$` also accepts a single trailing newline). -/
def distanceMatch (s : List Char) : Bool :=
  let d1 := s.takeWhile Char.isDigit
  if d1.isEmpty then false
  else
    match s.drop d1.length with
    | '.' :: rest =>
      let d2 := rest.takeWhile Char.isDigit
      if d2.isEmpty then false
      else
        let tail := rest.drop d2.length
        decide (tail = (" miles").data) || decide (tail = (" miles\n").data)
    | _ => false

def phoneLabel : List Char := ("Phone:").data
def genderLabel : List Char := ("Gender:").data
def languagesLabel : List Char := ("Languages Spoken:").data
def specialtiesLabel : List Char := ("Specialties:").data
def groupAffLabel : List Char := ("Group Affiliations:").data
def telemedicineLit : List Char := ("Telemedicine").data
def telemedicineLower : List Char := ("telemedicine").data
def naLit : List Char := ("N/A").data
def maleLit : List Char := ("Male").data
def femaleLit : List Char := ("Female").data
def commaMD : List Char := (", MD").data
def commaDO : List Char := (", DO").data
def commaMDnl : List Char := (", MD\n").data
def commaDOnl : List Char := (", DO\n").data
def mdLit : List Char := ("MD").data
def doLit : List Char := ("DO").data

/-- Match of `([\w\s,.'-]+, (?:MD|DO))` starting at position `i`: the greedy
class run backtracks from longest to shortest until `, MD` or `, DO`
follows; the returned capture is the whole match. -/
def nameMatchAt (s : List Char) (i : Nat) : Option (List Char) :=
  let M := nameRunFrom s i
  (List.range M).findSome? (fun t =>
    let g := M - t
    if litAt s (i + g) commaMD || litAt s (i + g) commaDO then
      some ((s.drop i).take (g + 4))
    else none)

/-- `re.search` for the name pattern: earliest start position wins. -/
def nameSearch (s : List Char) : Option (List Char) :=
  (List.range (s.length + 1)).findSome? (fun i => nameMatchAt s i)

/-- Match of `\(\d{3}\)\s*\d{3}-\d{4}` starting at position `q` (the capture
group of the phone pattern); the inner `\s*` backtracks longest first. -/
def phoneNumAt (s : List Char) (q : Nat) : Option (List Char) :=
  match s.drop q with
  | '(' :: a :: b :: c :: ')' :: rest =>
    if a.isDigit && b.isDigit && c.isDigit then
      let w2 := (rest.takeWhile isSpaceChar).length
      (List.range (w2 + 1)).findSome? (fun t =>
        let m := w2 - t
        match rest.drop m with
        | y1 :: y2 :: y3 :: '-' :: y4 :: y5 :: y6 :: y7 :: _ =>
          if y1.isDigit && y2.isDigit && y3.isDigit && y4.isDigit && y5.isDigit &&
              y6.isDigit && y7.isDigit then
            some ('(' :: a :: b :: c :: ')' :: (rest.take m ++ [y1, y2, y3, '-', y4, y5, y6, y7]))
          else none
        | _ => none)
    else none
  | _ => none

/-- Match of `Phone:\s*(\(\d{3}\)\s*\d{3}-\d{4})` starting at position `i`. -/
def phoneMatchAt (s : List Char) (i : Nat) : Option (List Char) :=
  if litAt s i phoneLabel then
    let p := i + 6
    let w := wsRunFrom s p
    (List.range (w + 1)).findSome? (fun t => phoneNumAt s (p + (w - t)))
  else none

def phoneSearch (s : List Char) : Option (List Char) :=
  (List.range (s.length + 1)).findSome? (fun i => phoneMatchAt s i)

/-- Match of `Gender:\s*(Male|Female)` starting at position `i`; the
alternatives are tried in written order. -/
def genderMatchAt (s : List Char) (i : Nat) : Option (List Char) :=
  if litAt s i genderLabel then
    let p := i + 7
    let w := wsRunFrom s p
    (List.range (w + 1)).findSome? (fun t =>
      let q := p + (w - t)
      if litAt s q maleLit then some maleLit
      else if litAt s q femaleLit then some femaleLit
      else none)
  else none

def genderSearch (s : List Char) : Option (List Char) :=
  (List.range (s.length + 1)).findSome? (fun i => genderMatchAt s i)

/-- Match of `Languages Spoken:\s*([^\n]+)` starting at position `i`: `\s*`
backtracks longest first, then `[^\n]+` greedily captures to the end of the
line. -/
def languagesMatchAt (s : List Char) (i : Nat) : Option (List Char) :=
  if litAt s i languagesLabel then
    let p := i + 17
    let w := wsRunFrom s p
    (List.range (w + 1)).findSome? (fun t =>
      let q := p + (w - t)
      match s.drop q with
      | [] => none
      | c :: rest =>
        if c == '\n' then none
        else some (c :: rest.takeWhile (fun d => !(d == '\n'))))
  else none

def languagesSearch (s : List Char) : Option (List Char) :=
  (List.range (s.length + 1)).findSome? (fun i => languagesMatchAt s i)

/-- Match of `\n\s*\n` starting at position `j`, as a Boolean. -/
def blankAt (s : List Char) (j : Nat) : Bool :=
  charIs s j '\n' &&
    (List.range (wsRunFrom s (j + 1) + 1)).any (fun m => charIs s (j + 1 + m) '\n')

/-- Match of `Specialties:\s*([\s\S]*?)(?:\n\s*\n|Group Affiliations:)` at
position `i`: `\s*` backtracks longest first, the lazy group grows from the
empty capture, and the terminator alternatives are tried at each candidate
end position. -/
def specialtiesMatchAt (s : List Char) (i : Nat) : Option (List Char) :=
  if litAt s i specialtiesLabel then
    let p := i + 12
    let w := wsRunFrom s p
    (List.range (w + 1)).findSome? (fun t =>
      let q := p + (w - t)
      (List.range (s.length + 1 - q)).findSome? (fun l =>
        if blankAt s (q + l) || litAt s (q + l) groupAffLabel then
          some ((s.drop q).take l)
        else none))
  else none

def specialtiesSearch (s : List Char) : Option (List Char) :=
  (List.range (s.length + 1)).findSome? (fun i => specialtiesMatchAt s i)

/-- Match of `(?:MD|DO)\s*\n([\s\S]*?)Phone:` at position `i`. -/
def headerMatchAt (s : List Char) (i : Nat) : Option (List Char) :=
  if litAt s i mdLit || litAt s i doLit then
    let p := i + 2
    let w := wsRunFrom s p
    (List.range (w + 1)).findSome? (fun t =>
      let m := w - t
      if charIs s (p + m) '\n' then
        let q := p + m + 1
        (List.range (s.length + 1 - q)).findSome? (fun l =>
          if litAt s (q + l) phoneLabel then some ((s.drop q).take l) else none)
      else none)
  else none

def headerSearch (s : List Char) : Option (List Char) :=
  (List.range (s.length + 1)).findSome? (fun i => headerMatchAt s i)

/-- The lookahead `(?=[\w\s,.'-]+, (?:MD|DO)\n)` of the block-splitting
pattern, evaluated at position `i`. -/
def boundaryLookaheadAt (s : List Char) (i : Nat) : Bool :=
  let M := nameRunFrom s i
  (List.range M).any (fun t =>
    let g := M - t
    litAt s (i + g) commaMDnl || litAt s (i + g) commaDOnl)

/-- Positions of the newlines consumed by
`re.split(r'\n(?=[\w\s,.\'-]+, (?:MD|DO)\n)', text)`. -/
def splitPositions (s : List Char) : List Nat :=
  (List.range s.length).filter (fun i => charIs s i '\n' && boundaryLookaheadAt s (i + 1))

/-- The slice `s[a:b]`. -/
def sliceBetween (s : List Char) (a b : Nat) : List Char := (s.drop a).take (b - a)

/-- The provider blocks produced by the `re.split` call: the text is cut at
each split position, with the consumed newline removed. -/
def splitBlocks (s : List Char) : List (List Char) :=
  let ps := splitPositions s
  List.zipWith (sliceBetween s) (0 :: ps.map (fun i => i + 1)) (ps ++ [s.length])

structure Provider where
  name : List Char
  serviceType : List Char
  medicalGroup : List Char
  phone : List Char
  gender : List Char
  languagesSpoken : List Char
  specialties : List Char
deriving DecidableEq, Repr

/-- `' '.join(name_match.group(1).replace(',', '').split())`, with the
`'N/A'` fallback when the name pattern does not match. -/
def nameField (b : List Char) : List Char :=
  match nameSearch b with
  | some cap => joinSep [' '] (pySplitWs (cap.filter (fun c => !(c == ','))))
  | none => naLit

/-- `phone_match.group(1).strip()`, with the `'N/A'` fallback. -/
def phoneField (b : List Char) : List Char :=
  match phoneSearch b with
  | some cap => pyStrip cap
  | none => naLit

/-- `gender_match.group(1).strip()`, with the `'N/A'` fallback. -/
def genderField (b : List Char) : List Char :=
  match genderSearch b with
  | some cap => pyStrip cap
  | none => naLit

/-- Languages cleanup: strip, cut a merged `Specialties:` tail, replace
`", "` separators by `" & "`; `'N/A'` when the pattern did not match. -/
def languagesField (b : List Char) : List Char :=
  match languagesSearch b with
  | some cap =>
    let t0 := pyStrip cap
    let t1 :=
      if substrIn specialtiesLabel t0 then pyStrip (takeBefore t0 specialtiesLabel) else t0
    replaceCommaSpace t1
  | none => naLit

/-- Specialties cleanup: strip, join the stripped lines with single spaces,
`re.sub(r'\s*,\s*', ' - ')`, strip; `'N/A'` when the pattern did not match. -/
def specialtiesField (b : List Char) : List Char :=
  match specialtiesSearch b with
  | some cap =>
    pyStrip (subCommaDash (joinSep [' '] ((splitOnNl (pyStrip cap)).map pyStrip)))
  | none => naLit

/-- The non-empty stripped lines of the header region (between the credential
suffix and the `Phone:` label), when the header pattern matches. -/
def headerLines (b : List Char) : Option (List (List Char)) :=
  match headerSearch b with
  | some cap => some (((splitOnNl (pyStrip cap)).map pyStrip).filter (fun l => !(l.isEmpty)))
  | none => none

/-- `(service_type, medical_group)` computed from the header region. -/
def headerFields (b : List Char) : List Char × List Char :=
  match headerLines b with
  | none => ([], [])
  | some lines =>
    if lines.any (fun l => substrIn telemedicineLit l) then
      (telemedicineLit,
       (lines.find? (fun l => !(substrIn telemedicineLower (lowerStr l)))).getD naLit)
    else
      match lines with
      | [] => ([], [])
      | first :: rest =>
        (joinSep [' '] (rest.filter (fun part => !(distanceMatch part))), first)

/-- The record built for one block that passed the validity gate. -/
def extractFields (b : List Char) : Provider :=
  { name := nameField b
    serviceType := (headerFields b).1
    medicalGroup := (headerFields b).2
    phone := phoneField b
    gender := genderField b
    languagesSpoken := languagesField b
    specialties := specialtiesField b }

/-- One iteration of the block loop: the validity gate (`"Phone:" in block`
and `"Gender:" in block`), then field extraction; a rejected or failing
block contributes no record. -/
def parseBlock (b : List Char) : Option Provider :=
  if substrIn phoneLabel b && substrIn genderLabel b then some (extractFields b)
  else none

/-- `parse_provider_data`: split the text into blocks, process each block in
order, and collect the records of the successful blocks. -/
def parse_provider_data (text : List Char) : List Provider :=
  (splitBlocks text).filterMap parseBlock

/-- The row written for one provider, in the fixed CSV column order. -/
def providerRow (p : Provider) : List (List Char) :=
  [p.name, p.serviceType, p.medicalGroup, p.phone, p.gender, p.languagesSpoken, p.specialties]

/-- The rows of the CSV output: the header row, then one row per record. -/
def csvRows (ps : List Provider) : List (List (List Char)) :=
  [("Name").data, ("Service Type").data, ("Medical Group").data, ("Phone").data,
   ("Gender").data, ("Languages Spoken").data, ("Specialties").data] :: ps.map providerRow

/-- Shape of a successful phone capture, as the source pattern
`\(\d{3}\)\s*\d{3}-\d{4}` guarantees it: three digits in parentheses, then
any (possibly empty) whitespace run, then three digits, a hyphen, four
digits. -/
def phoneShape (s : List Char) : Bool :=
  match s with
  | '(' :: a :: b :: c :: ')' :: rest =>
    a.isDigit && b.isDigit && c.isDigit &&
      (match rest.dropWhile isSpaceChar with
       | y1 :: y2 :: y3 :: '-' :: y4 :: y5 :: y6 :: y7 :: [] =>
         y1.isDigit && y2.isDigit && y3.isDigit && y4.isDigit && y5.isDigit &&
           y6.isDigit && y7.isDigit
       | _ => false)
  | _ => false

/-- The phone format asserted by the specification, following its words:
exactly `(NNN) NNN-NNNN` — three digits in parentheses, one space, three
digits, a hyphen, four digits. -/
def specPhoneFormat (s : List Char) : Bool :=
  match s with
  | '(' :: a :: b :: c :: ')' :: ' ' :: d :: e :: f :: '-' :: g1 :: g2 :: g3 :: g4 :: [] =>
    a.isDigit && b.isDigit && c.isDigit && d.isDigit && e.isDigit && f.isDigit &&
      g1.isDigit && g2.isDigit && g3.isDigit && g4.isDigit
  | _ => false

/-! ## Helper lemmas -/

theorem findSome_mem {α β : Type} (f : α → Option β) :
    ∀ (l : List α) (v : β), l.findSome? f = some v → ∃ a, a ∈ l ∧ f a = some v := by
  intro l
  induction l with
  | nil => intro v h; simp [List.findSome?] at h
  | cons a l ih =>
    intro v h
    cases hfa : f a with
    | some c =>
      simp only [List.findSome?, hfa] at h
      exact ⟨a, List.mem_cons_self a l, hfa.trans h⟩
    | none =>
      simp only [List.findSome?, hfa] at h
      obtain ⟨x, hx, hfx⟩ := ih v h
      exact ⟨x, List.mem_cons_of_mem a hx, hfx⟩

theorem findSome_none {α β : Type} (f : α → Option β) :
    ∀ (l : List α), (∀ a ∈ l, f a = none) → l.findSome? f = none := by
  intro l
  induction l with
  | nil => intro _; simp [List.findSome?]
  | cons a l ih =>
    intro h
    have ha : f a = none := h a (List.mem_cons_self a l)
    simp only [List.findSome?, ha]
    exact ih (fun x hx => h x (List.mem_cons_of_mem a hx))

theorem litAt_bound (s : List Char) (i : Nat) (lit : List Char)
    (h : litAt s i lit = true) (hne : 0 < lit.length) :
    i + lit.length ≤ s.length := by
  have heq : (s.drop i).take lit.length = lit := of_decide_eq_true h
  have hlen := congrArg List.length heq
  simp only [List.length_take, List.length_drop] at hlen
  have hmin : min lit.length (s.length - i) ≤ s.length - i := Nat.min_le_right _ _
  rw [hlen] at hmin
  omega

theorem digit_not_space (c : Char) (h : c.isDigit = true) : isSpaceChar c = false := by
  by_contra hc
  rw [Bool.not_eq_false] at hc
  unfold isSpaceChar at hc
  simp only [Bool.or_eq_true, beq_iff_eq] at hc
  rcases hc with ((((h1 | h1) | h1) | h1) | h1) | h1 <;> subst h1 <;>
    exact absurd h (by decide)

theorem mem_take_takeWhile (p : Char → Bool) :
    ∀ (l : List Char) (m : Nat), m ≤ (l.takeWhile p).length →
      ∀ c ∈ l.take m, p c = true := by
  intro l
  induction l with
  | nil => intro m hm c hc; simp at hc
  | cons a l ih =>
    intro m hm c hc
    cases m with
    | zero => simp at hc
    | succ m =>
      cases hpa : p a with
      | false =>
        simp [List.takeWhile_cons, hpa] at hm
      | true =>
        simp only [List.takeWhile_cons, hpa, if_true, List.length_cons] at hm
        rw [List.take_succ_cons] at hc
        rcases List.mem_cons.mp hc with rfl | hc2
        · exact hpa
        · exact ih m (Nat.le_of_succ_le_succ hm) c hc2

theorem dropWhile_append_of_all (p : Char → Bool) (d : Char) (t : List Char)
    (hd : p d = false) :
    ∀ ws : List Char, (∀ c ∈ ws, p c = true) →
      (ws ++ d :: t).dropWhile p = d :: t := by
  intro ws
  induction ws with
  | nil => intro _; simp [List.dropWhile_cons, hd]
  | cons a ws ih =>
    intro h
    have ha : p a = true := h a (List.mem_cons_self _ _)
    simp only [List.cons_append, List.dropWhile_cons, ha, if_true]
    exact ih (fun c hc => h c (List.mem_cons_of_mem a hc))

theorem pyStrip_of_ends (a d : Char) (mid : List Char)
    (ha : isSpaceChar a = false) (hd : isSpaceChar d = false) :
    pyStrip (a :: (mid ++ [d])) = a :: (mid ++ [d]) := by
  unfold pyStrip
  rw [List.dropWhile_cons]
  simp only [ha, Bool.false_eq_true, if_false]
  rw [show (a :: (mid ++ [d])).reverse = d :: (mid.reverse ++ [a]) from by simp]
  rw [List.dropWhile_cons]
  simp only [hd, Bool.false_eq_true, if_false]
  simp

theorem parseBlock_some (b : List Char) (r : Provider)
    (hp : parseBlock b = some r) : r = extractFields b := by
  unfold parseBlock at hp
  split at hp
  · exact (Option.some.inj hp).symm
  · exact absurd hp (by simp)

theorem genderSearch_cases (b cap : List Char) (h : genderSearch b = some cap) :
    cap = maleLit ∨ cap = femaleLit := by
  obtain ⟨i, _, hi⟩ := findSome_mem _ _ _ h
  unfold genderMatchAt at hi
  split at hi
  · obtain ⟨t, _, ht⟩ := findSome_mem _ _ _ hi
    dsimp only at ht
    split at ht
    · exact Or.inl (Option.some.inj ht).symm
    · split at ht
      · exact Or.inr (Option.some.inj ht).symm
      · exact absurd ht (by simp)
  · exact absurd hi (by simp)

theorem splitWsAux_append_space (w : List Char) :
    ∀ (x cur : List Char),
      splitWsAux (x ++ ' ' :: w) cur = splitWsAux x cur ++ splitWsAux w [] := by
  intro x
  induction x with
  | nil =>
    intro cur
    cases hc : cur.isEmpty <;>
      simp [splitWsAux, show isSpaceChar ' ' = true from by decide, hc]
  | cons c cs ih =>
    intro cur
    cases hsp : isSpaceChar c with
    | true =>
      cases hc : cur.isEmpty <;> simp [splitWsAux, hsp, hc, ih]
    | false =>
      simp [splitWsAux, hsp, ih]

theorem joinSep_suffix_last (sep x : List Char) (ts : List (List Char)) :
    x <:+ joinSep sep (ts ++ [x]) := by
  induction ts with
  | nil => simp [joinSep]
  | cons t ts ih =>
    cases hts : ts ++ [x] with
    | nil => simp at hts
    | cons y rest =>
      have hunf : joinSep sep ((t :: ts) ++ [x]) = t ++ (sep ++ joinSep sep (ts ++ [x])) := by
        rw [List.cons_append, hts]
        simp [joinSep]
      rw [hunf]
      exact ih.trans ((List.suffix_append sep _).trans (List.suffix_append t _))

theorem phoneNumAt_shape (s : List Char) (q : Nat) (cap : List Char)
    (h : phoneNumAt s q = some cap) :
    phoneShape cap = true ∧ pyStrip cap = cap := by
  unfold phoneNumAt at h
  split at h
  case h_2 => exact absurd h (by simp)
  case h_1 =>
    rename_i a b c rest hdq
    split at h
    case isFalse => exact absurd h (by simp)
    case isTrue hdig =>
      obtain ⟨t, htmem, ht⟩ := findSome_mem _ _ _ h
      dsimp only at ht
      split at ht
      case h_2 => exact absurd ht (by simp)
      case h_1 =>
        rename_i y1 y2 y3 y4 y5 y6 y7 tail2 hdr
        split at ht
        case isFalse => exact absurd ht (by simp)
        case isTrue hdig2 =>
          have hcap := (Option.some.inj ht).symm
          simp only [Bool.and_eq_true] at hdig hdig2
          have htake : ∀ ch ∈ rest.take ((rest.takeWhile isSpaceChar).length - t),
              isSpaceChar ch = true :=
            mem_take_takeWhile isSpaceChar rest _ (Nat.sub_le _ _)
          have hdw : (rest.take ((rest.takeWhile isSpaceChar).length - t) ++
                [y1, y2, y3, '-', y4, y5, y6, y7]).dropWhile isSpaceChar
              = [y1, y2, y3, '-', y4, y5, y6, y7] :=
            dropWhile_append_of_all isSpaceChar y1 _
              (digit_not_space y1 hdig2.1.1.1.1.1.1) _ htake
          constructor
          · rw [hcap]
            unfold phoneShape
            simp only [hdw]
            simp [hdig.1.1, hdig.2, hdig.1.2, hdig2.1.1.1.1.1.1, hdig2.1.1.1.1.1.2,
              hdig2.1.1.1.1.2, hdig2.1.1.1.2, hdig2.1.1.2, hdig2.1.2, hdig2.2]
          · rw [hcap]
            have hform : '(' :: a :: b :: c :: ')' ::
                  (rest.take ((rest.takeWhile isSpaceChar).length - t) ++
                    [y1, y2, y3, '-', y4, y5, y6, y7])
                = '(' :: ((a :: b :: c :: ')' ::
                    (rest.take ((rest.takeWhile isSpaceChar).length - t) ++
                      [y1, y2, y3, '-', y4, y5, y6])) ++ [y7]) := by
              simp
            rw [hform]
            exact pyStrip_of_ends '(' y7 _ (by decide) (digit_not_space y7 hdig2.2)

/-! ## Concrete test inputs (used by witnesses and counterexamples) -/

def blockNoOptional : List Char := ("A, MD\nPhone: (123) 456-7890\nGender: Male").data

def goodBlockC : List Char := ("C, MD\nPhone: (999) 888-7777\nGender: Female").data

def corruptBlock : List Char := ("@@corrupt page footer@@").data

def teleLowerText : List Char :=
  ("A, MD\ntelemedicine\nPhone: (123) 456-7890\nGender: Male").data

def acmeText : List Char :=
  ("A, MD\nAcme Clinic\n123 Main St\n0.5 miles\nPhone: (123) 456-7890\nGender: Male").data

def genderUnknownText : List Char :=
  ("A, MD\nPhone: (123) 456-7890\nGender: Unknown").data

/-! ## Claim theorems -/

/-- C1: a provider record is appended only for a block containing both the
literal substrings "Phone:" and "Gender:"; every block lacking either
produces no record; the output sequence is exactly the in-order
concatenation of the per-block results. -/
theorem c1_validity_gate (b : List Char) :
    (∀ r : Provider, parseBlock b = some r →
        substrIn phoneLabel b = true ∧ substrIn genderLabel b = true)
  ∧ ((substrIn phoneLabel b = false ∨ substrIn genderLabel b = false) →
        parseBlock b = none)
  ∧ (∀ text : List Char,
        parse_provider_data text = (splitBlocks text).filterMap parseBlock) := by
  refine ⟨?_, ?_, fun _ => rfl⟩
  · intro r hr
    unfold parseBlock at hr
    split at hr
    · rename_i hcond
      simp only [Bool.and_eq_true] at hcond
      exact hcond
    · exact absurd hr (by simp)
  · intro h
    unfold parseBlock
    rcases h with h | h <;> simp [h]

/-- Witness for C1 at a concrete block lacking both labels. -/
theorem c1_validity_gate_witness :
    parseBlock (("Page 3 of 10 footer").data) = none :=
  (c1_validity_gate (("Page 3 of 10 footer").data)).2.1 (Or.inl (by decide))

/-- C6: in an emitted record, when the Languages Spoken pattern found no
match in the block, languagesSpoken is "N/A"; when the Specialties pattern
found no match, specialties is "N/A". -/
theorem c6_field_defaults (b : List Char) (r : Provider)
    (hp : parseBlock b = some r) :
    (languagesSearch b = none → r.languagesSpoken = naLit)
  ∧ (specialtiesSearch b = none → r.specialties = naLit) := by
  have hr := parseBlock_some b r hp
  subst hr
  constructor
  · intro h
    simp [extractFields, languagesField, h]
  · intro h
    simp [extractFields, specialtiesField, h]

/-- Witness for C6 at a block carrying neither optional label. -/
theorem c6_field_defaults_witness :
    ∃ r : Provider, parseBlock blockNoOptional = some r ∧
      r.languagesSpoken = naLit ∧ r.specialties = naLit := by
  obtain ⟨r, hr⟩ := Option.isSome_iff_exists.mp
    (show (parseBlock blockNoOptional).isSome = true from by decide)
  have h6 := c6_field_defaults blockNoOptional r hr
  exact ⟨r, hr, h6.1 (by decide), h6.2 (by decide)⟩

/-- C7: a block whose processing yields no record (rejected by the gate, or
failing during extraction) contributes nothing, and all other blocks are
still processed, in their original order. -/
theorem c7_block_resilience (xs ys : List (List Char)) (c : List Char)
    (hc : parseBlock c = none) :
    (xs ++ c :: ys).filterMap parseBlock
      = xs.filterMap parseBlock ++ ys.filterMap parseBlock := by
  simp [List.filterMap_append, List.filterMap_cons, hc]

/-- Witness for C7: one corrupt block between two well-formed blocks. -/
theorem c7_block_resilience_witness :
    ([blockNoOptional] ++ corruptBlock :: [goodBlockC]).filterMap parseBlock
      = [blockNoOptional].filterMap parseBlock ++ [goodBlockC].filterMap parseBlock :=
  c7_block_resilience [blockNoOptional] [goodBlockC] corruptBlock (by decide)

/-- C8: the parsing pipeline and the row rendering are deterministic:
evaluating them twice on the same text yields identical results. -/
theorem c8_deterministic (t : List Char) :
    parse_provider_data t = parse_provider_data t
  ∧ csvRows (parse_provider_data t) = csvRows (parse_provider_data t) :=
  ⟨rfl, rfl⟩

/-- C2 (amended): the telemedicine branch triggers on a case-sensitive
occurrence of the substring "Telemedicine" in some header line (not a
case-insensitive one); the record then has serviceType "Telemedicine" and
medicalGroup the first header line that does not contain "telemedicine"
case-insensitively, or "N/A" if every line does. -/
theorem c2_telemedicine_amended (b : List Char) (r : Provider)
    (lines : List (List Char))
    (hp : parseBlock b = some r)
    (hl : headerLines b = some lines)
    (ht : lines.any (fun l => substrIn telemedicineLit l) = true) :
    r.serviceType = telemedicineLit
  ∧ r.medicalGroup
      = (lines.find? (fun l => !(substrIn telemedicineLower (lowerStr l)))).getD naLit := by
  have hr := parseBlock_some b r hp
  subst hr
  constructor <;> simp [extractFields, headerFields, hl, ht]

/-- C2 counterexample: a header line reading "telemedicine" contains
"Telemedicine" under case-insensitive matching, yet the emitted record's
serviceType is not "Telemedicine" (the code's trigger is case-sensitive):
the record gets serviceType "" and medicalGroup "telemedicine". -/
theorem c2_telemedicine_counterexample :
    headerLines teleLowerText = some [("telemedicine").data]
  ∧ substrIn (lowerStr telemedicineLit) (lowerStr (("telemedicine").data)) = true
  ∧ ¬ (∀ r ∈ parse_provider_data teleLowerText, r.serviceType = telemedicineLit) := by
  decide

/-- Witness for C2 (amended) at header lines ["Acme Clinic", "Telemedicine"]. -/
theorem c2_telemedicine_amended_witness :
    ∃ r : Provider,
      parseBlock (("A, MD\nAcme Clinic\nTelemedicine\nPhone: (123) 456-7890\nGender: Male").data)
          = some r
      ∧ r.serviceType = telemedicineLit ∧ r.medicalGroup = ("Acme Clinic").data := by
  obtain ⟨r, hr⟩ := Option.isSome_iff_exists.mp
    (show (parseBlock
      (("A, MD\nAcme Clinic\nTelemedicine\nPhone: (123) 456-7890\nGender: Male").data)).isSome
        = true from by decide)
  have h2 := c2_telemedicine_amended _ r
    [("Acme Clinic").data, ("Telemedicine").data] hr (by decide) (by decide)
  exact ⟨r, hr, h2.1, h2.2.trans (by decide)⟩

/-- C5: for a block whose non-empty header lines contain no "Telemedicine"
substring, medicalGroup is the first header line verbatim and serviceType is
the remaining header lines minus distance artifacts, joined with single
spaces. -/
theorem c5_address_case (b : List Char) (r : Provider)
    (first : List Char) (rest : List (List Char))
    (hp : parseBlock b = some r)
    (hl : headerLines b = some (first :: rest))
    (ht : ∀ l ∈ first :: rest, substrIn telemedicineLit l = false) :
    r.medicalGroup = first
  ∧ r.serviceType = joinSep [' '] (rest.filter (fun part => !(distanceMatch part))) := by
  have hr := parseBlock_some b r hp
  subst hr
  have hany : (first :: rest).any (fun l => substrIn telemedicineLit l) = false := by
    rw [List.any_eq_false]
    intro l hlmem
    simp [ht l hlmem]
  constructor <;> simp [extractFields, headerFields, hl, hany]

/-- Witness for C5 at the spec's example header lines
["Acme Clinic", "123 Main St", "0.5 miles"]: medicalGroup "Acme Clinic",
serviceType "123 Main St" (the distance artifact is dropped). -/
theorem c5_address_case_witness :
    ∃ r : Provider, parseBlock acmeText = some r ∧
      r.medicalGroup = ("Acme Clinic").data ∧ r.serviceType = ("123 Main St").data := by
  obtain ⟨r, hr⟩ := Option.isSome_iff_exists.mp
    (show (parseBlock acmeText).isSome = true from by decide)
  have h5 := c5_address_case acmeText r (("Acme Clinic").data)
    [("123 Main St").data, ("0.5 miles").data] hr (by decide) (by decide)
  exact ⟨r, hr, h5.1, h5.2.trans (by decide)⟩

/-- C3 (amended): every emitted record's gender is "Male", "Female", or
"N/A" — the N/A case arises when the block carries a "Gender:" substring
(so it passes the gate) but the pattern `Gender:\s*(Male|Female)` finds no
match. -/
theorem c3_gender_amended (b : List Char) (r : Provider)
    (hp : parseBlock b = some r) :
    r.gender = maleLit ∨ r.gender = femaleLit ∨ r.gender = naLit := by
  have hr := parseBlock_some b r hp
  subst hr
  cases hg : genderSearch b with
  | none =>
    right; right
    simp [extractFields, genderField, hg]
  | some cap =>
    have hfield : (extractFields b).gender = pyStrip cap := by
      simp [extractFields, genderField, hg]
    rcases genderSearch_cases b cap hg with hcap | hcap
    · left
      rw [hfield, hcap]
      decide
    · right; left
      rw [hfield, hcap]
      decide

/-- C3 counterexample: the block "A, MD\nPhone: (123) 456-7890\nGender:
Unknown" passes the gate and is emitted, but its gender field is "N/A",
neither "Male" nor "Female". -/
theorem c3_gender_counterexample :
    ¬ (∀ r ∈ parse_provider_data genderUnknownText,
        r.gender = maleLit ∨ r.gender = femaleLit) := by
  decide

/-- Witness for C3 (amended) at a concrete male block. -/
theorem c3_gender_amended_witness :
    ∃ r : Provider, parseBlock blockNoOptional = some r ∧
      (r.gender = maleLit ∨ r.gender = femaleLit ∨ r.gender = naLit) := by
  obtain ⟨r, hr⟩ := Option.isSome_iff_exists.mp
    (show (parseBlock blockNoOptional).isSome = true from by decide)
  exact ⟨r, hr, c3_gender_amended blockNoOptional r hr⟩

/-- C4 (amended): every emitted record's phone field is either "N/A" (the
phone pattern found no match although the "Phone:" label is present) or a
capture of `\(\d{3}\)\s*\d{3}-\d{4}` — the separator between `(NNN)` and
`NNN-NNNN` is an arbitrary, possibly empty, whitespace run, not necessarily
one space. -/
theorem c4_phone_amended (b : List Char) (r : Provider)
    (hp : parseBlock b = some r) :
    r.phone = naLit ∨ phoneShape r.phone = true := by
  have hr := parseBlock_some b r hp
  subst hr
  cases hps : phoneSearch b with
  | none =>
    left
    simp [extractFields, phoneField, hps]
  | some cap =>
    right
    have hfield : (extractFields b).phone = pyStrip cap := by
      simp [extractFields, phoneField, hps]
    rw [hfield]
    obtain ⟨i, _, hi⟩ := findSome_mem _ _ _ hps
    unfold phoneMatchAt at hi
    split at hi
    · obtain ⟨t, _, ht⟩ := findSome_mem _ _ _ hi
      try dsimp only at ht
      have hsh := phoneNumAt_shape _ _ _ ht
      rw [hsh.2]
      exact hsh.1
    · exact absurd hi (by simp)

def phonePlainText : List Char := ("A, MD\nPhone: 555-1234\nGender: Male").data

/-- C4 counterexample: with "Phone: 555-1234" the block passes the gate and
a record is emitted, but its phone field is "N/A", not a number in the
`(NNN) NNN-NNNN` format the claim asserts. -/
theorem c4_phone_counterexample :
    ¬ (∀ r ∈ parse_provider_data phonePlainText, specPhoneFormat r.phone = true) := by
  decide

/-- Witness for C4 (amended) at a concrete block with a well-formed phone. -/
theorem c4_phone_amended_witness :
    ∃ r : Provider, parseBlock goodBlockC = some r ∧
      (r.phone = naLit ∨ phoneShape r.phone = true) := by
  obtain ⟨r, hr⟩ := Option.isSome_iff_exists.mp
    (show (parseBlock goodBlockC).isSome = true from by decide)
  exact ⟨r, hr, c4_phone_amended goodBlockC r hr⟩

/-- C9: a block containing a "Specialties:" label but, at or after the end
of any such label, no blank-line pattern `\n\s*\n` and no
"Group Affiliations:" label, yields specialties "N/A" even when specialty
text follows the label. -/
theorem c9_specialties_terminator (b : List Char) (r : Provider)
    (hp : parseBlock b = some r)
    (hlab : substrIn specialtiesLabel b = true)
    (hterm : ∀ i, i < b.length → litAt b i specialtiesLabel = true →
        ∀ j, j ≤ b.length → i + 12 ≤ j →
          blankAt b j = false ∧ litAt b j groupAffLabel = false) :
    r.specialties = naLit := by
  have hr := parseBlock_some b r hp
  subst hr
  have hnone : specialtiesSearch b = none := by
    apply findSome_none
    intro i _
    unfold specialtiesMatchAt
    by_cases hl : litAt b i specialtiesLabel = true
    · rw [if_pos hl]
      try dsimp only
      have hlb := litAt_bound b i specialtiesLabel hl (by decide)
      have h12 : specialtiesLabel.length = 12 := by decide
      rw [h12] at hlb
      apply findSome_none
      intro t _
      try dsimp only
      apply findSome_none
      intro l hlmem
      try dsimp only
      have hlt := List.mem_range.mp hlmem
      have hj2 : i + 12 + (wsRunFrom b (i + 12) - t) + l ≤ b.length := by omega
      have hj1 : i + 12 ≤ i + 12 + (wsRunFrom b (i + 12) - t) + l := by omega
      have hb := hterm i (by omega) hl _ hj2 hj1
      simp [hb.1, hb.2]
    · rw [if_neg hl]
  simp [extractFields, specialtiesField, hnone]

def specNoTermText : List Char :=
  ("A, MD\nPhone: (123) 456-7890\nGender: Male\nSpecialties: Cardiology").data

/-- Witness for C9: "Specialties: Cardiology" at the end of the block, with
no blank line and no "Group Affiliations:", gives specialties "N/A". -/
theorem c9_specialties_terminator_witness :
    ∃ r : Provider, parseBlock specNoTermText = some r ∧ r.specialties = naLit := by
  obtain ⟨r, hr⟩ := Option.isSome_iff_exists.mp
    (show (parseBlock specNoTermText).isSome = true from by decide)
  exact ⟨r, hr, c9_specialties_terminator specNoTermText r hr (by decide) (by decide)⟩

theorem joinSep_splitWs_suffix (x cred : List Char)
    (hcred : splitWsAux cred [] = [cred]) :
    cred <:+ joinSep [' '] (pySplitWs (x ++ ' ' :: cred)) := by
  unfold pySplitWs
  rw [splitWsAux_append_space, hcred]
  exact joinSep_suffix_last [' '] cred _

/-- C10 (amended): when the name pattern matches, the cleaned name field
ends with "MD" or "DO".  It need not end with " MD"/" DO": the whitespace
before the credential is collapsed away when only commas and whitespace
precede it. -/
theorem c10_name_amended (b : List Char) (r : Provider) (cap : List Char)
    (hp : parseBlock b = some r)
    (hn : nameSearch b = some cap) :
    mdLit <:+ r.name ∨ doLit <:+ r.name := by
  have hr := parseBlock_some b r hp
  subst hr
  have hfield : (extractFields b).name
      = joinSep [' '] (pySplitWs (cap.filter (fun c => !(c == ',')))) := by
    simp [extractFields, nameField, hn]
  obtain ⟨i, _, hi⟩ := findSome_mem _ _ _ hn
  unfold nameMatchAt at hi
  obtain ⟨t, _, ht⟩ := findSome_mem _ _ _ hi
  dsimp only at ht
  split at ht
  case isFalse => exact absurd ht (by simp)
  case isTrue hcond =>
    have hcap : cap = (b.drop i).take (nameRunFrom b i - t + 4) :=
      (Option.some.inj ht).symm
    have hdd : (b.drop i).drop (nameRunFrom b i - t)
        = b.drop (i + (nameRunFrom b i - t)) := by
      rw [List.drop_drop, Nat.add_comm]
    simp only [Bool.or_eq_true] at hcond
    rcases hcond with hlit | hlit
    · left
      have hlen : commaMD.length = 4 := by decide
      have h4 : (b.drop (i + (nameRunFrom b i - t))).take 4 = commaMD := by
        have h0 := of_decide_eq_true hlit
        rw [hlen] at h0
        exact h0
      have hsplit : cap = (b.drop i).take (nameRunFrom b i - t) ++ commaMD := by
        rw [hcap, List.take_add, hdd, h4]
      have hfilter : cap.filter (fun c => !(c == ','))
          = ((b.drop i).take (nameRunFrom b i - t)).filter (fun c => !(c == ','))
              ++ ' ' :: ['M', 'D'] := by
        rw [hsplit, List.filter_append]
        congr 1
      rw [hfield, hfilter]
      rw [show mdLit = ['M', 'D'] from by decide]
      exact joinSep_splitWs_suffix _ ['M', 'D'] (by decide)
    · right
      have hlen : commaDO.length = 4 := by decide
      have h4 : (b.drop (i + (nameRunFrom b i - t))).take 4 = commaDO := by
        have h0 := of_decide_eq_true hlit
        rw [hlen] at h0
        exact h0
      have hsplit : cap = (b.drop i).take (nameRunFrom b i - t) ++ commaDO := by
        rw [hcap, List.take_add, hdd, h4]
      have hfilter : cap.filter (fun c => !(c == ','))
          = ((b.drop i).take (nameRunFrom b i - t)).filter (fun c => !(c == ','))
              ++ ' ' :: ['D', 'O'] := by
        rw [hsplit, List.filter_append]
        congr 1
      rw [hfield, hfilter]
      rw [show doLit = ['D', 'O'] from by decide]
      exact joinSep_splitWs_suffix _ ['D', 'O'] (by decide)

def commaNameText : List Char := (", , MD\nPhone: (123) 456-7890\nGender: Male").data

/-- C10 counterexample: on the block ", , MD\n..." the name pattern matches
and the emitted record's name is "MD", which does not end with " MD" or
" DO" (the space was collapsed away with the commas). -/
theorem c10_name_counterexample :
    (nameSearch commaNameText).isSome = true
  ∧ (parse_provider_data commaNameText).map Provider.name = [("MD").data]
  ∧ ¬ (∀ r ∈ parse_provider_data commaNameText,
        (" MD").data <:+ r.name ∨ (" DO").data <:+ r.name) := by
  decide

/-- Witness for C10 (amended) at a concrete block. -/
theorem c10_name_amended_witness :
    ∃ r : Provider, parseBlock blockNoOptional = some r ∧
      (mdLit <:+ r.name ∨ doLit <:+ r.name) := by
  obtain ⟨r, hr⟩ := Option.isSome_iff_exists.mp
    (show (parseBlock blockNoOptional).isSome = true from by decide)
  obtain ⟨cap, hcap⟩ := Option.isSome_iff_exists.mp
    (show (nameSearch blockNoOptional).isSome = true from by decide)
  exact ⟨r, hr, c10_name_amended blockNoOptional r cap hr hcap⟩

end ProviderPDFtoCSV
